import Mathlib

/-!
Verification development for `xenonpy/utils/useful_cls.py`.

The timing subsystem is embedded shallowly:
* `TimerSlot` embeds the inner class `Timer._Timer` (fields `start` and `times`).
* A `Timer`'s mutable registry `self._timers` (a `defaultdict(self._Timer)` whose
  insertion order is the order of first reference) is embedded as the association
  list `TimerState`, and each method of `Timer` becomes an explicit state-passing
  function.  Clock readings are passed as explicit arguments: a value written
  `now` comes from the injected `self._func` where the source calls
  `self._func()`, and the ambient `time.perf_counter()` reading that
  `Timer._Timer.elapsed` uses is a separate explicit argument `perfNow`.
* The source performs only sums, differences and comparisons on time stamps
  (never division), so clock readings are modelled as exact integers `ℤ`;
  Python exceptions become `Except` values carrying the message string.
-/

deriving instance DecidableEq for Except

/-- Embeds `Timer._Timer`: `self.start = None`, `self.times = []`.
`start` is the pending start timestamp (`None` when idle), `times` the list of
completed durations. -/
structure TimerSlot where
  start : Option ℤ
  times : List ℤ
deriving DecidableEq, Repr

/-- Embeds `Timer._Timer.elapsed`:
`all_ = sum(self.times); dt = time.perf_counter() - self.start if self.start else 0.0`.
Python truthiness: the live delta is added only when `self.start` is neither
`None` nor `0.0`.  `perfNow` is the ambient `time.perf_counter()` reading — the
source reads the module-level clock here, not the injected `self._func`. -/
def TimerSlot.elapsed (perfNow : ℤ) (sl : TimerSlot) : ℤ :=
  sl.times.sum + (match sl.start with
    | none => 0
    | some t => if t = 0 then 0 else perfNow - t)

/-- Comparison definition following the spec's words (refinement check only, not
a translation of the source): "While a slot is Running, `elapsed` equals
completed-sum-so-far plus (now − runningSince)", with `now` obtained from the
Timer's injectable clock function.  `injectedNow` is the injected clock's
current reading. -/
def TimerSlot.elapsedClaimed (injectedNow : ℤ) (sl : TimerSlot) : ℤ :=
  sl.times.sum + (match sl.start with
    | none => 0
    | some t => injectedNow - t)

/-- Embeds the registry `self._timers` of a `Timer` object: an association list
from slot name to slot, kept in insertion (first-reference) order like a Python
`defaultdict`. -/
abbrev TimerState := List (String × TimerSlot)

/-- Association-list lookup, embedding `fn_name in self._timers` /
`self._timers[fn_name]` for a key that is present. -/
def lookupSlot (name : String) : TimerState → Option TimerSlot
  | [] => none
  | (k, v) :: rest => if k = name then some v else lookupSlot name rest

/-- Replaces the value stored under `name` (no-op when absent); embeds in-place
mutation of the `_Timer` object held in `self._timers[fn_name]`. -/
def setSlot (name : String) (sl : TimerSlot) : TimerState → TimerState
  | [] => []
  | (k, v) :: rest => if k = name then (k, sl) :: rest else (k, v) :: setSlot name sl rest

/-- Embeds a `defaultdict(self._Timer)` subscript access `self._timers[fn_name]`:
returns the stored slot, or inserts and returns a fresh `_Timer()` (appended at
the end, preserving insertion order) when the key is absent. -/
def getOrCreate (name : String) (s : TimerState) : TimerSlot × TimerState :=
  match lookupSlot name s with
  | some sl => (sl, s)
  | none => (⟨none, []⟩, s ++ [(name, (⟨none, []⟩ : TimerSlot))])

/-- Embeds `Timer.start(fn_name)`: raise `RuntimeError` if
`self._timers[fn_name].start is not None`, else record `self._func()` (passed
here as the explicit injected-clock reading `now`).  Both subscript accesses go
through the defaultdict, so the slot is created even on the error path. -/
def Timer.start (name : String) (now : ℤ) (s : TimerState) :
    Except String Unit × TimerState :=
  let p := getOrCreate name s
  match p.1.start with
  | some _ => (Except.error ("Timer <" ++ name ++ "> Already started"), p.2)
  | none => (Except.ok (), setSlot name ⟨some now, p.1.times⟩ p.2)

/-- Embeds `Timer.stop(fn_name)`: raise `RuntimeError` if
`self._timers[fn_name].start is None` (the defaultdict access still inserts a
fresh slot on that path), else append `self._func() - start` to `times` and
clear `start`.  `now` is the injected-clock reading at the moment of the call. -/
def Timer.stop (name : String) (now : ℤ) (s : TimerState) :
    Except String Unit × TimerState :=
  let p := getOrCreate name s
  match p.1.start with
  | none => (Except.error ("Timer <" ++ name ++ "> not started"), p.2)
  | some t => (Except.ok (), setSlot name ⟨none, p.1.times ++ [now - t]⟩ p.2)

/-- Embeds the property `Timer.elapsed`: the `"main"` slot's elapsed when a slot
named `"main"` exists, otherwise the sum of `elapsed` over all slots.
`perfNow` is the ambient `time.perf_counter()` reading used by any running
slot's live delta. -/
def Timer.elapsed (perfNow : ℤ) (s : TimerState) : ℤ :=
  match lookupSlot "main" s with
  | some sl => sl.elapsed perfNow
  | none => (s.map (fun p => p.2.elapsed perfNow)).sum

/-- Convenience reading of one named slot's elapsed (`self._timers[name].elapsed`
for a name that is present; `0` for an absent name, matching a fresh slot). -/
def Timer.elapsedOf (name : String) (perfNow : ℤ) (s : TimerState) : ℤ :=
  match lookupSlot name s with
  | some sl => sl.elapsed perfNow
  | none => 0

/-- Stable insertion (ascending by the numeric value component) used to embed the
first, ascending `sorted(tmp.items(), key=lambda t: t[1])` of `Timer.__repr__`.
An element is placed before the first existing element whose key is not smaller,
so earlier elements precede later ones among equal keys (Python's sort is
stable). -/
def insAsc (x : String × ℤ) : List (String × ℤ) → List (String × ℤ)
  | [] => [x]
  | y :: ys => if y.2 < x.2 then y :: insAsc x ys else x :: y :: ys

/-- Stable ascending sort by the numeric component (embeds
`sorted(..., key=lambda t: t[1])`). -/
def sortAsc : List (String × ℤ) → List (String × ℤ)
  | [] => []
  | x :: xs => insAsc x (sortAsc xs)

/-- Stable insertion (descending by the numeric value component) used to embed
`sorted(tmp.items(), key=lambda t: t[1], reverse=True)` of `Timer.__repr__`. -/
def insDesc (x : String × ℤ) : List (String × ℤ) → List (String × ℤ)
  | [] => [x]
  | y :: ys => if x.2 < y.2 then y :: insDesc x ys else x :: y :: ys

/-- Stable descending sort by the numeric component (embeds
`sorted(..., key=lambda t: t[1], reverse=True)`). -/
def sortDesc : List (String × ℤ) → List (String × ℤ)
  | [] => []
  | x :: xs => insDesc x (sortDesc xs)

/-- Embeds the slot ordering of `Timer.__repr__`:
`tmp = {k: v.elapsed for k, v in self._timers.items()}` (insertion order),
`tmp = dict(sorted(tmp.items(), key=lambda t: t[1]))` (stable ascending), then
the final `sorted(tmp.items(), key=lambda t: t[1], reverse=True)` (stable
descending) over which the per-slot lines are emitted. -/
def Timer.reprPairs (perfNow : ℤ) (s : TimerState) : List (String × ℤ) :=
  sortDesc (sortAsc (s.map (fun p => (p.1, p.2.elapsed perfNow))))

/-- Plain rendering of an integer number of seconds (the source formats through
`datetime.timedelta`, a display concern; only the underlying numeric value
matters for the ordering contract). -/
def durStr (q : ℤ) : String :=
  toString q

/-- Embeds `Timer.__repr__` as its list of lines: the `Total elapsed:` header
(built from the `elapsed` property) followed by one `  |- name: duration` line
per slot in `reprPairs` order. -/
def Timer.reprLines (perfNow : ℤ) (s : TimerState) : List String :=
  ("Total elapsed: " ++ durStr (Timer.elapsed perfNow s) ++ " <seconds>")
    :: (Timer.reprPairs perfNow s).map (fun p => "  |- " ++ p.1 ++ ": " ++ durStr p.2)

/-- A Python exception as seen by the caller of a wrapped operation: either the
original exception raised by the wrapped body (`user`) or a `RuntimeError`
coming from the `Timer` itself (`runtime`). -/
inductive PyExc (ε : Type) where
  | user : ε → PyExc ε
  | runtime : String → PyExc ε
deriving DecidableEq

/-- Embeds the wrapper `fn_` built by `TimedMetaClass._timed`:
`self._timer.start(fn.__name__); try: rt = fn(self, ...); finally: self._timer.stop(fn.__name__); return rt`.
The wrapped body is modelled as its outcome `res` (it does not touch the timer),
`t0`/`t1` are the injected-clock readings taken by `start`/`stop`.  A failure
in `start` propagates before the body runs; the `finally` always runs `stop`,
and an exception raised there would replace the body's outcome (Python
semantics). -/
def timedWrap {ε β : Type} (name : String) (res : Except ε β) (t0 t1 : ℤ)
    (s : TimerState) : Except (PyExc ε) β × TimerState :=
  match Timer.start name t0 s with
  | (Except.error m, s1) => (Except.error (PyExc.runtime m), s1)
  | (Except.ok _, s1) =>
    match Timer.stop name t1 s1 with
    | (Except.error m, s2) => (Except.error (PyExc.runtime m), s2)
    | (Except.ok _, s2) => (res.mapError PyExc.user, s2)

/-- Embeds `with Timer(...) as t: body` through `Timer.__enter__` /
`Timer.__exit__`: entering starts slot `"main"`, leaving by any path calls
`stop("main")` (Python's `with` statement runs `__exit__` on normal completion
and on a propagating exception; `__exit__` returns `None`, so the body's
exception is never suppressed). -/
def Timer.withBlock {ε β : Type} (res : Except ε β) (t0 t1 : ℤ)
    (s : TimerState) : Except (PyExc ε) β × TimerState :=
  match Timer.start "main" t0 s with
  | (Except.error m, s1) => (Except.error (PyExc.runtime m), s1)
  | (Except.ok _, s1) =>
    match Timer.stop "main" t1 s1 with
    | (Except.error m, s2) => (Except.error (PyExc.runtime m), s2)
    | (Except.ok _, s2) => (res.mapError PyExc.user, s2)

/-- Decides whether the named slot is absent or idle (its `start` is `None`) —
the precondition under which `Timer.start` succeeds. -/
def slotIdleOrAbsent (name : String) (s : TimerState) : Bool :=
  match lookupSlot name s with
  | none => true
  | some sl => sl.start.isNone

/-- Runs a sequence of paired `start(name)`/`stop(name)` calls; each pair carries
the injected-clock readings observed by its `start` and its `stop`. -/
def runPairs (name : String) : List (ℤ × ℤ) → TimerState → Except String TimerState
  | [], s => Except.ok s
  | (a, b) :: rest, s =>
    match Timer.start name a s with
    | (Except.error m, _) => Except.error m
    | (Except.ok _, s1) =>
      match Timer.stop name b s1 with
      | (Except.error m, _) => Except.error m
      | (Except.ok _, s2) => runPairs name rest s2

/-- Embeds Python's `str.startswith` on the character list of the string (the
built-in `String.startsWith` is observationally the same but does not reduce in
the kernel). -/
def pyStartsWith (s p : String) : Bool :=
  p.data.isPrefixOf s.data

/-- A class attribute as seen by `TimedMetaClass.__new__`: either a function
(with a flag recording whether it is already the timed wrapper) or a
non-invocable value, carrying the name of its Python type. -/
inductive PyAttr where
  | func (timed : Bool)
  | data (kind : String)
deriving DecidableEq, Repr

/-- Embeds `isinstance(value_, (types.FunctionType, types.MethodType))`. -/
def PyAttr.isFunc : PyAttr → Bool
  | .func _ => true
  | .data _ => false

/-- The `type(fn)` rendering used in the error message of
`TimedMetaClass._timed`. -/
def PyAttr.kindName : PyAttr → String
  | .func _ => "function"
  | .data k => k

/-- Embeds `TimedMetaClass._timed`: a function is replaced by the timed wrapper
`fn_`; anything else raises
`TypeError(f'Need <FunctionType> or <MethodType> but got {type(fn)}')`. -/
def TimedMetaClass.timed : PyAttr → Except String PyAttr
  | .func _ => Except.ok (.func true)
  | .data k =>
      Except.error ("Need <FunctionType> or <MethodType> but got <class '" ++ k ++ "'>")

/-- Embeds the wrapping loop of `TimedMetaClass.__new__`:
`for name_, value_ in attrs.items(): if not name_.startswith("__") and isinstance(value_, (FunctionType, MethodType)): attrs[name_] = TimedMetaClass._timed(value_)`.
A `TypeError` raised by `_timed` would propagate out of class construction. -/
def wrapAttrs : List (String × PyAttr) → Except String (List (String × PyAttr))
  | [] => Except.ok []
  | (n, v) :: rest =>
    if !pyStartsWith n "__" && v.isFunc then
      match TimedMetaClass.timed v with
      | Except.error m => Except.error m
      | Except.ok v2 => (wrapAttrs rest).map (fun r => (n, v2) :: r)
    else (wrapAttrs rest).map (fun r => (n, v) :: r)

/-- Embeds an instance's attribute dictionary for the initializer model
(attribute name to value; `"_timer"` marks the injected `Timer`). -/
abbrev Inst := List (String × ℤ)

/-- Embeds `setattr(self, name, value)` on the instance dictionary. -/
def setattrF (n : String) (v : ℤ) : Inst → Inst
  | [] => [(n, v)]
  | (k, w) :: rest => if k = n then (k, v) :: rest else (k, w) :: setattrF n v rest

/-- An initializer: positional arguments and the instance being initialized, to
the initialized instance, or a `TypeError` for a call that does not match the
parameter list. -/
abbrev InitFn := List ℤ → Inst → Except String Inst

/-- Embeds the `__init__` injection of `TimedMetaClass.__new__`.  When the class
body defines `__init__` (`ownInit = some realInit`), the injected initializer
sets `self._timer` and then calls the hidden real one with the same arguments
(`injected_init(self, *args, **kwargs)`); when it does not, the injected
initializer is `def injected_init(self)`, which accepts no arguments beyond
`self` and calls no inherited initializer. -/
def injectInit (ownInit : Option InitFn) : InitFn :=
  match ownInit with
  | some realInit => fun args self => realInit args (setattrF "_timer" 0 self)
  | none => fun args self =>
      match args with
      | [] => Except.ok (setattrF "_timer" 0 self)
      | _ => Except.error "TypeError: injected_init() takes 1 positional argument"

/-- Python attribute lookup for `__init__` on a class: the class body's own
`__init__` when present, otherwise the inherited one. -/
def classInit (own : Option InitFn) (base : InitFn) : InitFn :=
  own.getD base

/-- Concrete example of a user-written base-class initializer
`def __init__(self, x): self.x = x` for evaluating the transform. -/
def baseRealInit : InitFn := fun args self =>
  match args with
  | [x] => Except.ok (setattrF "x" x self)
  | _ => Except.error "TypeError: __init__() takes 2 positional arguments"

/-! ## Helper lemmas -/

theorem lookupSlot_append_of_none {n : String} {s : TimerState} (l : TimerState)
    (h : lookupSlot n s = none) : lookupSlot n (s ++ l) = lookupSlot n l := by
  induction s with
  | nil => simp
  | cons kv rest ih =>
    obtain ⟨k, v⟩ := kv
    by_cases hk : k = n
    · simp [lookupSlot, hk] at h
    · simp only [lookupSlot, hk, if_neg hk] at h ⊢
      simpa [lookupSlot, hk] using ih h

theorem setSlot_append_of_none {n : String} {s : TimerState} (v : TimerSlot)
    (l : TimerState) (h : lookupSlot n s = none) :
    setSlot n v (s ++ l) = s ++ setSlot n v l := by
  induction s with
  | nil => simp
  | cons kv rest ih =>
    obtain ⟨k, w⟩ := kv
    by_cases hk : k = n
    · simp [lookupSlot, hk] at h
    · simp only [lookupSlot, hk, if_neg hk] at h
      simp [setSlot, hk, ih h]

theorem lookupSlot_setSlot_some {n : String} {s : TimerState} {sl : TimerSlot}
    (v : TimerSlot) (h : lookupSlot n s = some sl) :
    lookupSlot n (setSlot n v s) = some v := by
  induction s with
  | nil => simp [lookupSlot] at h
  | cons kv rest ih =>
    obtain ⟨k, w⟩ := kv
    by_cases hk : k = n
    · simp [setSlot, hk, lookupSlot]
    · simp only [lookupSlot, hk, if_neg hk] at h
      simp [setSlot, hk, lookupSlot, ih h]

theorem mem_insAsc {z x : String × ℤ} {ys : List (String × ℤ)} :
    z ∈ insAsc x ys ↔ z = x ∨ z ∈ ys := by
  induction ys with
  | nil => simp [insAsc]
  | cons y ys ih =>
    by_cases h : y.2 < x.2
    · simp [insAsc, h, ih]; tauto
    · simp [insAsc, h]

theorem mem_insDesc {z x : String × ℤ} {ys : List (String × ℤ)} :
    z ∈ insDesc x ys ↔ z = x ∨ z ∈ ys := by
  induction ys with
  | nil => simp [insDesc]
  | cons y ys ih =>
    by_cases h : x.2 < y.2
    · simp [insDesc, h, ih]; tauto
    · simp [insDesc, h]

theorem mem_sortAsc {z : String × ℤ} {l : List (String × ℤ)} :
    z ∈ sortAsc l ↔ z ∈ l := by
  induction l with
  | nil => simp [sortAsc]
  | cons x xs ih => simp [sortAsc, mem_insAsc, ih]

theorem mem_sortDesc {z : String × ℤ} {l : List (String × ℤ)} :
    z ∈ sortDesc l ↔ z ∈ l := by
  induction l with
  | nil => simp [sortDesc]
  | cons x xs ih => simp [sortDesc, mem_insDesc, ih]

theorem length_insAsc (x : String × ℤ) (ys : List (String × ℤ)) :
    (insAsc x ys).length = ys.length + 1 := by
  induction ys with
  | nil => rfl
  | cons y ys ih =>
    by_cases h : y.2 < x.2 <;> simp [insAsc, h, ih]

theorem length_insDesc (x : String × ℤ) (ys : List (String × ℤ)) :
    (insDesc x ys).length = ys.length + 1 := by
  induction ys with
  | nil => rfl
  | cons y ys ih =>
    by_cases h : x.2 < y.2 <;> simp [insDesc, h, ih]

theorem length_sortAsc (l : List (String × ℤ)) : (sortAsc l).length = l.length := by
  induction l with
  | nil => rfl
  | cons x xs ih => simp [sortAsc, length_insAsc, ih]

theorem length_sortDesc (l : List (String × ℤ)) : (sortDesc l).length = l.length := by
  induction l with
  | nil => rfl
  | cons x xs ih => simp [sortDesc, length_insDesc, ih]

theorem filter_insAsc (q : ℤ) (x : String × ℤ) (ys : List (String × ℤ)) :
    (insAsc x ys).filter (fun z => decide (z.2 = q))
      = (x :: ys).filter (fun z => decide (z.2 = q)) := by
  induction ys with
  | nil => rfl
  | cons y ys ih =>
    by_cases h : y.2 < x.2
    · have e : insAsc x (y :: ys) = y :: insAsc x ys := by rw [insAsc, if_pos h]
      by_cases hyq : y.2 = q
      · have hxq : ¬ x.2 = q := by
          intro hx
          rw [hyq, hx] at h
          exact lt_irrefl q h
        rw [e]
        simp [List.filter_cons, hyq, hxq, ih]
      · rw [e]
        simp [List.filter_cons, hyq, ih]
    · rw [insAsc, if_neg h]

theorem filter_insDesc (q : ℤ) (x : String × ℤ) (ys : List (String × ℤ)) :
    (insDesc x ys).filter (fun z => decide (z.2 = q))
      = (x :: ys).filter (fun z => decide (z.2 = q)) := by
  induction ys with
  | nil => rfl
  | cons y ys ih =>
    by_cases h : x.2 < y.2
    · have e : insDesc x (y :: ys) = y :: insDesc x ys := by rw [insDesc, if_pos h]
      by_cases hyq : y.2 = q
      · have hxq : ¬ x.2 = q := by
          intro hx
          rw [hyq, hx] at h
          exact lt_irrefl q h
        rw [e]
        simp [List.filter_cons, hyq, hxq, ih]
      · rw [e]
        simp [List.filter_cons, hyq, ih]
    · rw [insDesc, if_neg h]

theorem filter_sortAsc (q : ℤ) (l : List (String × ℤ)) :
    (sortAsc l).filter (fun z => decide (z.2 = q))
      = l.filter (fun z => decide (z.2 = q)) := by
  induction l with
  | nil => rfl
  | cons x xs ih =>
    calc (insAsc x (sortAsc xs)).filter (fun z => decide (z.2 = q))
        = (x :: sortAsc xs).filter (fun z => decide (z.2 = q)) := filter_insAsc q x _
      _ = (x :: xs).filter (fun z => decide (z.2 = q)) := by
          by_cases hx : x.2 = q <;> simp [List.filter, hx, ih]

theorem filter_sortDesc (q : ℤ) (l : List (String × ℤ)) :
    (sortDesc l).filter (fun z => decide (z.2 = q))
      = l.filter (fun z => decide (z.2 = q)) := by
  induction l with
  | nil => rfl
  | cons x xs ih =>
    calc (insDesc x (sortDesc xs)).filter (fun z => decide (z.2 = q))
        = (x :: sortDesc xs).filter (fun z => decide (z.2 = q)) := filter_insDesc q x _
      _ = (x :: xs).filter (fun z => decide (z.2 = q)) := by
          by_cases hx : x.2 = q <;> simp [List.filter, hx, ih]

theorem pairwise_insDesc {x : String × ℤ} {ys : List (String × ℤ)}
    (h : ys.Pairwise (fun a b => b.2 ≤ a.2)) :
    (insDesc x ys).Pairwise (fun a b => b.2 ≤ a.2) := by
  induction ys with
  | nil => simp [insDesc]
  | cons y ys ih =>
    rw [List.pairwise_cons] at h
    obtain ⟨hy, hys⟩ := h
    by_cases hcmp : x.2 < y.2
    · rw [insDesc, if_pos hcmp, List.pairwise_cons]
      refine ⟨?_, ih hys⟩
      intro z hz
      rcases mem_insDesc.mp hz with hzx | hzy
      · rw [hzx]; exact le_of_lt hcmp
      · exact hy z hzy
    · rw [insDesc, if_neg hcmp, List.pairwise_cons]
      refine ⟨?_, List.pairwise_cons.mpr ⟨hy, hys⟩⟩
      intro z hz
      rcases List.mem_cons.mp hz with hzy | hzys
      · rw [hzy]; exact le_of_not_lt hcmp
      · exact le_trans (hy z hzys) (le_of_not_lt hcmp)

theorem pairwise_sortDesc (l : List (String × ℤ)) :
    (sortDesc l).Pairwise (fun a b => b.2 ≤ a.2) := by
  induction l with
  | nil => simp [sortDesc]
  | cons x xs ih => exact pairwise_insDesc ih

theorem timedWrap_of_idle {ε β : Type} (name : String) (res : Except ε β)
    (t0 t1 : ℤ) (s : TimerState) (h : slotIdleOrAbsent name s = true) :
    (timedWrap name res t0 t1 s).1 = res.mapError PyExc.user
    ∧ ∃ ts, lookupSlot name (timedWrap name res t0 t1 s).2
        = some ⟨none, ts ++ [t1 - t0]⟩ := by
  unfold slotIdleOrAbsent at h
  cases hl : lookupSlot name s with
  | none =>
    have h1 : Timer.start name t0 s = (Except.ok (), s ++ [(name, ⟨some t0, []⟩)]) := by
      simp only [Timer.start, getOrCreate, hl]
      rw [setSlot_append_of_none _ _ hl]
      simp [setSlot]
    have hl1 : lookupSlot name (s ++ [(name, (⟨some t0, []⟩ : TimerSlot))])
        = some ⟨some t0, []⟩ := by
      rw [lookupSlot_append_of_none _ hl]
      simp [lookupSlot]
    have h2 : Timer.stop name t1 (s ++ [(name, ⟨some t0, []⟩)])
        = (Except.ok (), s ++ [(name, ⟨none, [t1 - t0]⟩)]) := by
      simp only [Timer.stop, getOrCreate, hl1]
      rw [setSlot_append_of_none _ _ hl]
      simp [setSlot]
    have hw : timedWrap name res t0 t1 s
        = (res.mapError PyExc.user, s ++ [(name, ⟨none, [t1 - t0]⟩)]) := by
      simp only [timedWrap, h1, h2]
    refine ⟨by rw [hw], [], ?_⟩
    rw [hw]
    rw [lookupSlot_append_of_none _ hl]
    simp [lookupSlot]
  | some sl =>
    rw [hl] at h
    have hstart : sl.start = none := Option.isNone_iff_eq_none.mp h
    have h1 : Timer.start name t0 s = (Except.ok (), setSlot name ⟨some t0, sl.times⟩ s) := by
      simp only [Timer.start, getOrCreate, hl, hstart]
    have hl1 : lookupSlot name (setSlot name ⟨some t0, sl.times⟩ s)
        = some ⟨some t0, sl.times⟩ := lookupSlot_setSlot_some _ hl
    have h2 : Timer.stop name t1 (setSlot name ⟨some t0, sl.times⟩ s)
        = (Except.ok (),
            setSlot name ⟨none, sl.times ++ [t1 - t0]⟩ (setSlot name ⟨some t0, sl.times⟩ s)) := by
      simp only [Timer.stop, getOrCreate, hl1]
    have hw : timedWrap name res t0 t1 s
        = (res.mapError PyExc.user,
            setSlot name ⟨none, sl.times ++ [t1 - t0]⟩ (setSlot name ⟨some t0, sl.times⟩ s)) := by
      simp only [timedWrap, h1, h2]
    refine ⟨by rw [hw], sl.times, ?_⟩
    rw [hw]
    exact lookupSlot_setSlot_some _ hl1

theorem withBlock_eq_timedWrap {ε β : Type} (res : Except ε β) (t0 t1 : ℤ)
    (s : TimerState) : Timer.withBlock res t0 t1 s = timedWrap "main" res t0 t1 s := rfl

theorem runPairs_state (name : String) (ps : List (ℤ × ℤ)) (ts : List ℤ) :
    runPairs name ps [(name, ⟨none, ts⟩)]
      = Except.ok [(name, ⟨none, ts ++ ps.map (fun p => p.2 - p.1)⟩)] := by
  induction ps generalizing ts with
  | nil => simp [runPairs]
  | cons p rest ih =>
    obtain ⟨a, b⟩ := p
    have h1 : Timer.start name a [(name, (⟨none, ts⟩ : TimerSlot))]
        = (Except.ok (), [(name, ⟨some a, ts⟩)]) := by
      simp [Timer.start, getOrCreate, lookupSlot, setSlot]
    have h2 : Timer.stop name b [(name, (⟨some a, ts⟩ : TimerSlot))]
        = (Except.ok (), [(name, ⟨none, ts ++ [b - a]⟩)]) := by
      simp [Timer.stop, getOrCreate, lookupSlot, setSlot]
    simp only [runPairs, h1, h2, ih]
    simp

/-- C7 (amended): the wrapping loop of `TimedMetaClass.__new__` replaces exactly
the function-valued attributes whose names do not start with `"__"` — including
single-leading-underscore ("private") names — by the timed wrapper, and leaves
every other attribute (dunder-prefixed names and non-function values)
unchanged; the loop itself never raises. -/
theorem wrap_exactly_non_dunder_functions (attrs : List (String × PyAttr)) :
    wrapAttrs attrs = Except.ok (attrs.map (fun nv =>
      if !pyStartsWith nv.1 "__" && nv.2.isFunc then (nv.1, PyAttr.func true) else nv)) := by
  induction attrs with
  | nil => rfl
  | cons nv rest ih =>
    obtain ⟨n, v⟩ := nv
    cases v with
    | func t =>
      by_cases hp : pyStartsWith n "__" = false
      · have hb : (!pyStartsWith n "__" && (PyAttr.func t).isFunc) = true := by
          simp [PyAttr.isFunc, hp]
        simp [wrapAttrs, hb, TimedMetaClass.timed, ih, PyAttr.isFunc, hp, Except.map]
      · have hp2 : pyStartsWith n "__" = true := by
          revert hp; cases pyStartsWith n "__" <;> simp
        have hb : (!pyStartsWith n "__" && (PyAttr.func t).isFunc) = false := by
          simp [hp2]
        simp [wrapAttrs, hb, ih, PyAttr.isFunc, hp2, Except.map]
    | data k =>
      have hb : (!pyStartsWith n "__" && (PyAttr.data k).isFunc) = false := by
        simp [PyAttr.isFunc]
      simp [wrapAttrs, hb, ih, PyAttr.isFunc, Except.map]

/-! ## Claim theorems -/

/-- C1: every wrapped operation call on an idle (or not-yet-existing) slot
starts the slot named after the operation and stops it whether the body
returns or raises: afterwards the slot is `Idle` (its `start` is `None`, with
the duration `t1 - t0` appended), and the caller observes the body's original
outcome unchanged; likewise `with Timer()` starts slot `"main"` on entry and
`stop("main")` runs on every exit path. -/
theorem guaranteed_release :
    (∀ (ε β : Type) (name : String) (res : Except ε β) (t0 t1 : ℤ) (s : TimerState),
        slotIdleOrAbsent name s = true →
          (timedWrap name res t0 t1 s).1 = res.mapError PyExc.user
          ∧ ∃ ts, lookupSlot name (timedWrap name res t0 t1 s).2
              = some ⟨none, ts ++ [t1 - t0]⟩)
    ∧ (∀ (ε β : Type) (res : Except ε β) (t0 t1 : ℤ) (s : TimerState),
        slotIdleOrAbsent "main" s = true →
          (Timer.withBlock res t0 t1 s).1 = res.mapError PyExc.user
          ∧ ∃ ts, lookupSlot "main" (Timer.withBlock res t0 t1 s).2
              = some ⟨none, ts ++ [t1 - t0]⟩) := by
  constructor
  · intro ε β name res t0 t1 s h
    exact timedWrap_of_idle name res t0 t1 s h
  · intro ε β res t0 t1 s h
    rw [withBlock_eq_timedWrap]
    exact timedWrap_of_idle "main" res t0 t1 s h

/-- Witness for C1: a failing operation `compute` (raising `7`) and a normally
completing managed block, both on a fresh timer. -/
theorem guaranteed_release_witness :
    (slotIdleOrAbsent "compute" ([] : TimerState) = true
      ∧ ((timedWrap "compute" (Except.error 7 : Except ℕ ℕ) 2 5 []).1
            = (Except.error 7 : Except ℕ ℕ).mapError PyExc.user
         ∧ ∃ ts, lookupSlot "compute" (timedWrap "compute" (Except.error 7 : Except ℕ ℕ) 2 5 []).2
              = some ⟨none, ts ++ [5 - 2]⟩))
    ∧ (slotIdleOrAbsent "main" ([] : TimerState) = true
      ∧ ((Timer.withBlock (Except.ok 3 : Except ℕ ℕ) 1 4 []).1
            = (Except.ok 3 : Except ℕ ℕ).mapError PyExc.user
         ∧ ∃ ts, lookupSlot "main" (Timer.withBlock (Except.ok 3 : Except ℕ ℕ) 1 4 []).2
              = some ⟨none, ts ++ [4 - 1]⟩)) :=
  ⟨⟨by decide, guaranteed_release.1 ℕ ℕ "compute" (Except.error 7) 2 5 [] (by decide)⟩,
   ⟨by decide, guaranteed_release.2 ℕ ℕ (Except.ok 3) 1 4 [] (by decide)⟩⟩

/-- C2: for every sequence of paired `start(name)`/`stop(name)` calls on a fresh
Timer with a deterministic injected clock, the slot's `elapsed` equals the sum
of the recorded increments; in particular clock ticks 0,5 give elapsed 5 and a
further pair 10,12 gives elapsed 7. -/
theorem paired_runs_elapsed_sum :
    (∀ (name : String) (ps : List (ℤ × ℤ)) (perfNow : ℤ),
        ∃ s, runPairs name ps [] = Except.ok s
          ∧ Timer.elapsedOf name perfNow s = (ps.map (fun p => p.2 - p.1)).sum)
    ∧ (∃ s, runPairs "a" [(0, 5)] [] = Except.ok s ∧ Timer.elapsedOf "a" 20 s = 5)
    ∧ (∃ s, runPairs "a" [(0, 5), (10, 12)] [] = Except.ok s
        ∧ Timer.elapsedOf "a" 20 s = 7) := by
  refine ⟨?_, ⟨[("a", ⟨none, [5]⟩)], by decide, by decide⟩,
    ⟨[("a", ⟨none, [5, 2]⟩)], by decide, by decide⟩⟩
  intro name ps perfNow
  cases ps with
  | nil => exact ⟨[], rfl, by simp [Timer.elapsedOf, lookupSlot]⟩
  | cons p rest =>
    obtain ⟨a, b⟩ := p
    refine ⟨[(name, ⟨none, [b - a] ++ rest.map (fun p => p.2 - p.1)⟩)], ?_, ?_⟩
    · have h1 : Timer.start name a [] = (Except.ok (), [(name, ⟨some a, []⟩)]) := by
        simp [Timer.start, getOrCreate, lookupSlot, setSlot]
      have h2 : Timer.stop name b [(name, (⟨some a, []⟩ : TimerSlot))]
          = (Except.ok (), [(name, ⟨none, [b - a]⟩)]) := by
        simp [Timer.stop, getOrCreate, lookupSlot, setSlot]
      simp only [runPairs, h1, h2]
      simpa using runPairs_state name rest [b - a]
    · simp [Timer.elapsedOf, lookupSlot, TimerSlot.elapsed]

/-- C3 (counterexample): reading `elapsed` of a running slot does not use the
Timer's injected clock.  Scenario: a Timer built with a fake injected clock,
`start` recorded the injected reading 5, the injected clock now reads 10 (so
the claim predicts 0 + (10 − 5) = 5), but the code computes the live delta from
the ambient `time.perf_counter()` reading (here 100), yielding 95.  Moreover,
for a recorded start timestamp of exactly 0 the live delta is dropped entirely
(Python truthiness), so the claimed formula fails even when both clocks agree. -/
theorem elapsed_ignores_injected_clock_cex :
    TimerSlot.elapsed 100 ⟨some 5, []⟩ ≠ TimerSlot.elapsedClaimed 10 ⟨some 5, []⟩
    ∧ TimerSlot.elapsed 100 ⟨some 0, []⟩ ≠ TimerSlot.elapsedClaimed 100 ⟨some 0, []⟩ := by
  decide

/-- C3 (amended): for a running slot whose recorded start timestamp is nonzero,
`elapsed` returns the sum of completed durations plus (now − runningSince)
where `now` is the ambient `time.perf_counter()` reading, not the injected
clock; reading `elapsed` is a pure function of the state (side-effect-free in
the embedding). -/
theorem elapsed_running_uses_perf_counter (perfNow t : ℤ) (ts : List ℤ)
    (h : t ≠ 0) :
    TimerSlot.elapsed perfNow ⟨some t, ts⟩ = ts.sum + (perfNow - t) := by
  simp [TimerSlot.elapsed, h]

/-- Witness for the amended C3 at `t = 5`, `perfNow = 100`. -/
theorem elapsed_running_uses_perf_counter_witness :
    (5 : ℤ) ≠ 0 ∧ TimerSlot.elapsed 100 ⟨some 5, [2]⟩ = ([2] : List ℤ).sum + (100 - 5) :=
  ⟨by decide, elapsed_running_uses_perf_counter 100 5 [2] (by decide)⟩

/-- C4: evaluating the initializer transform at the failing input.  Let `B` be
instrumented with `def __init__(self, x): self.x = x`, and let `D(B)` have no
`__init__` of its own (so `TimedMetaClass.__new__` takes its no-`__init__`
branch for `D`).  Constructing `D(5)`: without the transform, `D` would inherit
`B`'s initializer and accept the argument (second conjunct); with the
transform, the injected zero-argument `__init__` shadows it, rejects the
argument, and never runs the inherited body (first conjunct) — the public
constructor contract is altered, contradicting the claim. -/
theorem injected_init_breaks_inherited_contract :
    injectInit none [5] []
        = Except.error "TypeError: injected_init() takes 1 positional argument"
    ∧ classInit none (injectInit (some baseRealInit)) [5] []
        = Except.ok [("_timer", 0), ("x", 5)]
    ∧ injectInit none [5] [] ≠ classInit none (injectInit (some baseRealInit)) [5] [] := by
  refine ⟨by decide, by decide, by decide⟩

/-- C5: the report consists of the total line plus exactly one line per slot
(`reprLines` length), slots ordered by elapsed descending (`Pairwise`), with
slots of equal elapsed kept in original insertion order (the filter at each
elapsed value preserves the insertion-order list); the Timer with slots
x ↦ 3, y ↦ 7 lists y before x. -/
theorem report_sorted_desc_stable :
    (∀ (perfNow : ℤ) (s : TimerState),
        (Timer.reprPairs perfNow s).Pairwise (fun a b => b.2 ≤ a.2)
        ∧ (∀ q : ℤ, (Timer.reprPairs perfNow s).filter (fun z => decide (z.2 = q))
            = (s.map (fun p => (p.1, p.2.elapsed perfNow))).filter (fun z => decide (z.2 = q)))
        ∧ (Timer.reprPairs perfNow s).length = s.length
        ∧ (Timer.reprLines perfNow s).length = s.length + 1)
    ∧ Timer.reprPairs 0 [("x", ⟨none, [3]⟩), ("y", ⟨none, [7]⟩)] = [("y", 7), ("x", 3)] := by
  refine ⟨?_, by decide⟩
  intro perfNow s
  refine ⟨pairwise_sortDesc _, ?_, ?_, ?_⟩
  · intro q
    rw [Timer.reprPairs, filter_sortDesc, filter_sortAsc]
  · rw [Timer.reprPairs, length_sortDesc, length_sortAsc, List.length_map]
  · rw [Timer.reprLines]
    simp [Timer.reprPairs, length_sortDesc, length_sortAsc]

/-- C6: the `elapsed` property returns the `"main"` slot's elapsed whenever a
slot named `"main"` exists, and otherwise the sum of elapsed over all slots. -/
theorem elapsed_main_dispatch (perfNow : ℤ) (s : TimerState) :
    (∀ sl, lookupSlot "main" s = some sl → Timer.elapsed perfNow s = sl.elapsed perfNow)
    ∧ (lookupSlot "main" s = none
        → Timer.elapsed perfNow s = (s.map (fun p => p.2.elapsed perfNow)).sum) := by
  constructor
  · intro sl h
    simp only [Timer.elapsed, h]
  · intro h
    simp only [Timer.elapsed, h]

/-- Witness for C6: a registry with a `"main"` slot dispatches to it, one
without sums all slots. -/
theorem elapsed_main_dispatch_witness :
    Timer.elapsed 0 [("main", ⟨none, [2]⟩), ("b", ⟨none, [5]⟩)]
        = TimerSlot.elapsed 0 ⟨none, [2]⟩
    ∧ Timer.elapsed 0 [("b", ⟨none, [5]⟩)]
        = ([("b", (⟨none, [5]⟩ : TimerSlot))].map (fun p => p.2.elapsed 0)).sum :=
  ⟨(elapsed_main_dispatch 0 _).1 ⟨none, [2]⟩ (by decide),
   (elapsed_main_dispatch 0 _).2 (by decide)⟩

/-- C7 (counterexample): an attribute named with a single leading underscore
(`_helper`), which the claim says is left unwrapped, is in fact replaced by the
timed wrapper — the loop only skips names starting with `"__"`. -/
theorem private_method_wrapped_cex :
    wrapAttrs [("_helper", PyAttr.func false)] = Except.ok [("_helper", PyAttr.func true)]
    ∧ wrapAttrs [("_helper", PyAttr.func false)] ≠ Except.ok [("_helper", PyAttr.func false)] := by
  exact ⟨by decide, by decide⟩

/-- C8 (counterexample): asking the Instrumenter to process a plain data
attribute does not fail — the `isinstance` guard in the wrapping loop skips it
silently and class construction succeeds with the attribute unchanged,
contradicting the claimed `InvalidOperationKind` failure. -/
theorem data_attribute_silently_skipped_cex :
    wrapAttrs [("value", PyAttr.data "int")] = Except.ok [("value", PyAttr.data "int")] := by
  decide

/-- C8 (amended): during class construction a non-invocable attribute is never
passed to `_timed` (it is skipped silently, unchanged); only a direct call of
`TimedMetaClass._timed` on a non-invocable raises, with a `TypeError` whose
message names the actual kind (but not the attribute name). -/
theorem nonfunction_skipped_timed_typeerror :
    (∀ (n k : String) (rest : List (String × PyAttr)),
        wrapAttrs ((n, PyAttr.data k) :: rest)
          = (wrapAttrs rest).map (fun r => (n, PyAttr.data k) :: r))
    ∧ (∀ k, TimedMetaClass.timed (PyAttr.data k)
        = Except.error ("Need <FunctionType> or <MethodType> but got <class '" ++ k ++ "'>")) := by
  constructor
  · intro n k rest
    have hb : (!pyStartsWith n "__" && (PyAttr.data k).isFunc) = false := by
      simp [PyAttr.isFunc]
    simp [wrapAttrs, hb]
  · intro k
    rfl

/-- C9: `stop(name)` for a never-started name raises the not-started
`RuntimeError`, but the lazily-creating defaultdict lookup has already inserted
a fresh idle slot under that name, which then appears in the textual report
(as a pair with elapsed 0) and contributes 0 to the all-slots elapsed sum. -/
theorem stop_unstarted_error_creates_slot (name : String) (now now2 : ℤ)
    (s : TimerState) (h : lookupSlot name s = none) :
    Timer.stop name now s
        = (Except.error ("Timer <" ++ name ++ "> not started"),
            s ++ [(name, (⟨none, []⟩ : TimerSlot))])
    ∧ (name, (0 : ℤ)) ∈ Timer.reprPairs now2 (s ++ [(name, (⟨none, []⟩ : TimerSlot))])
    ∧ ((s ++ [(name, (⟨none, []⟩ : TimerSlot))]).map (fun p => p.2.elapsed now2)).sum
        = (s.map (fun p => p.2.elapsed now2)).sum := by
  refine ⟨?_, ?_, ?_⟩
  · simp only [Timer.stop, getOrCreate, h]
  · rw [Timer.reprPairs, mem_sortDesc, mem_sortAsc]
    refine List.mem_map.mpr ⟨(name, ⟨none, []⟩), ?_, ?_⟩
    · exact List.mem_append.mpr (Or.inr (by simp))
    · simp [TimerSlot.elapsed]
  · simp [TimerSlot.elapsed]

/-- Witness for C9 at name `"x"` on an empty registry. -/
theorem stop_unstarted_error_creates_slot_witness :
    Timer.stop "x" 1 []
        = (Except.error ("Timer <" ++ "x" ++ "> not started"),
            [] ++ [("x", (⟨none, []⟩ : TimerSlot))])
    ∧ ("x", (0 : ℤ)) ∈ Timer.reprPairs 2 ([] ++ [("x", (⟨none, []⟩ : TimerSlot))])
    ∧ ((([] : TimerState) ++ [("x", (⟨none, []⟩ : TimerSlot))]).map
          (fun p => p.2.elapsed 2)).sum
        = (([] : TimerState).map (fun p => p.2.elapsed 2)).sum :=
  stop_unstarted_error_creates_slot "x" 1 2 [] (by decide)

/-- C10: a slot running with recorded start timestamp exactly 0 is treated as
idle by `elapsed` (only the completed sum is returned, no live delta), yet a
subsequent `stop` still succeeds and records the duration `now - 0`. -/
theorem zero_start_treated_idle (name : String) (ts : List ℤ) (now : ℤ) :
    TimerSlot.elapsed now ⟨some 0, ts⟩ = ts.sum
    ∧ Timer.stop name now [(name, ⟨some 0, ts⟩)]
        = (Except.ok (), [(name, ⟨none, ts ++ [now - 0]⟩)]) := by
  constructor
  · simp [TimerSlot.elapsed]
  · simp [Timer.stop, getOrCreate, lookupSlot, setSlot]
